import Mathlib

/-!
Verification of the PythonEA decision pipeline.

The Python source is embedded shallowly: floats are modelled as exact
rationals, pandas DataFrames as lists of bars, `None`-returning functions
as `Option`, and the mutable strategy / guard objects as explicit state
records threaded through each evaluation step.
-/

/-- One OHLC bar; only the columns the embedded functions read
(`high`, `low`, `close`) are modelled. -/
structure Bar where
  high : ℚ
  low : ℚ
  close : ℚ
deriving DecidableEq, Repr

/-- Signal side, the `"buy"` / `"sell"` strings of the source. -/
inductive Side where
  | buy
  | sell
deriving DecidableEq, Repr

/-- Breakout comparison mode: the `breakout_mode` string, `"close"` or
`"intra"` (any other string behaves as `"intra"` in the source). -/
inductive Mode where
  | close
  | intra
deriving DecidableEq, Repr

/-- A returned trade signal: side, reference price, and the stop / target
stored in `meta` (every signal the generators return carries both). -/
structure Sig where
  side : Side
  price : ℚ
  sl : ℚ
  tp : ℚ
deriving DecidableEq, Repr

/-! ### Position sizing (`src/risk/position_sizing.py`) -/

/-- The MT5 `symbol_info` fields read by `calc_volume_for_risk`. -/
structure SymbolInfo where
  trade_tick_size : ℚ
  point : ℚ
  trade_tick_value : ℚ
  volume_min : ℚ
  volume_max : ℚ
  volume_step : ℚ
deriving DecidableEq, Repr

/-- `float(si.trade_tick_size or si.point or 0.0)`: Python `or` falls
through on the falsy value `0.0`. -/
def eff_tick_size (si : SymbolInfo) : ℚ :=
  if si.trade_tick_size ≠ 0 then si.trade_tick_size
  else if si.point ≠ 0 then si.point else 0

/-- `float(si.trade_tick_value or 0.0)`. -/
def eff_tick_value (si : SymbolInfo) : ℚ :=
  if si.trade_tick_value ≠ 0 then si.trade_tick_value else 0

/-- `float(si.volume_min or 0.01)`. -/
def eff_volume_min (si : SymbolInfo) : ℚ :=
  if si.volume_min ≠ 0 then si.volume_min else 1/100

/-- `float(si.volume_max or 100.0)`. -/
def eff_volume_max (si : SymbolInfo) : ℚ :=
  if si.volume_max ≠ 0 then si.volume_max else 100

/-- `float(si.volume_step or 0.01)`. -/
def eff_volume_step (si : SymbolInfo) : ℚ :=
  if si.volume_step ≠ 0 then si.volume_step else 1/100

/-- Python `round(x)`: round half to even, on exact rationals. -/
def pyRound (x : ℚ) : ℤ :=
  if x - ⌊x⌋ < 1/2 then ⌊x⌋
  else if x - ⌊x⌋ > 1/2 then ⌊x⌋ + 1
  else if ⌊x⌋ % 2 = 0 then ⌊x⌋ else ⌊x⌋ + 1

/-- Python `round(x, 6)`: round half to even at six decimal places. -/
def pyRound6 (x : ℚ) : ℚ :=
  (pyRound (x * 1000000) : ℚ) / 1000000

/-- `_round_to_step`: round a volume to the nearest valid step
(`round(round(value / step) * step, 6)`), identity for `step <= 0`. -/
def round_to_step (value step : ℚ) : ℚ :=
  if step ≤ 0 then value
  else pyRound6 ((pyRound (value / step) : ℚ) * step)

/-- The per-lot loss at the stop: `ticks = distance / tick_size`,
`loss_per_lot = ticks * tick_value`. -/
def lossPerLot (s : SymbolInfo) (entry stop : ℚ) : ℚ :=
  (|entry - stop| / eff_tick_size s) * eff_tick_value s

/-- The volume of `raw_volume = risk_money / loss_per_lot` after rounding
to the instrument step and clamping into `[volume_min, volume_max]`
(`vol = _round_to_step(...)`, then the two clamp branches). -/
def finalVolume (s : SymbolInfo) (equity entry stop rf : ℚ) : ℚ :=
  let vol0 := round_to_step ((equity * rf) / lossPerLot s entry stop) (eff_volume_step s)
  let vol1 := if vol0 < eff_volume_min s then eff_volume_min s else vol0
  if vol1 > eff_volume_max s then eff_volume_max s else vol1

/-- `calc_volume_for_risk`, with the guard chain exactly in source order.
The two MT5 reads are passed in explicitly: `si` models
`mt5.symbol_info(symbol)` and `ai` models `mt5.account_info()` (carrying
just the `equity` field). -/
def calc_volume_for_risk (si : Option SymbolInfo) (ai : Option ℚ)
    (entry_price stop_loss_price risk_fraction : ℚ) : Option ℚ :=
  if risk_fraction ≤ 0 then none
  else
    match si with
    | none => none
    | some s =>
      if eff_tick_size s ≤ 0 ∨ eff_tick_value s ≤ 0 then none
      else
        if |entry_price - stop_loss_price| ≤ 0 then none
        else
          match ai with
          | none => none
          | some equity =>
            if lossPerLot s entry_price stop_loss_price ≤ 0 then none
            else
              if finalVolume s equity entry_price stop_loss_price risk_fraction ≤ 0 then none
              else some (finalVolume s equity entry_price stop_loss_price risk_fraction)

/-- Scenario A instrument rules: tick_size 0.0001, tick_value 1,
volume_min 0.01, volume_max 100, volume_step 0.01. -/
def siA : SymbolInfo :=
  ⟨1/10000, 0, 1, 1/100, 100, 1/100⟩

/-- Scenario B instrument rules: same as Scenario A but tick_value 0. -/
def siB : SymbolInfo :=
  ⟨1/10000, 0, 0, 1/100, 100, 1/100⟩

/-- Instrument rules like Scenario A but with volume_max 1, so that the
broker cap binds long before the risk-derived volume. -/
def siC : SymbolInfo :=
  ⟨1/10000, 0, 1, 1/100, 1, 1/100⟩

/-- The documented failure conditions of the sizing routine, stated from
the spec list: risk_fraction ≤ 0; symbol rules unavailable; account
snapshot unavailable; tick_size ≤ 0 or tick_value ≤ 0; stop distance 0;
loss_per_lot ≤ 0; rounded-and-clamped volume ≤ 0. -/
def sizingFails (si : Option SymbolInfo) (ai : Option ℚ)
    (entry stop rf : ℚ) : Prop :=
  rf ≤ 0 ∨ si = none ∨ ai = none ∨
  (∃ s, si = some s ∧ (eff_tick_size s ≤ 0 ∨ eff_tick_value s ≤ 0)) ∨
  |entry - stop| = 0 ∨
  (∃ s e, si = some s ∧ ai = some e ∧
    (lossPerLot s entry stop ≤ 0 ∨ finalVolume s e entry stop rf ≤ 0))

/-! ### Daily loss guard (`src/scripts/run_live.py`, class `DailyLossGuard`) -/

/-- The guard's mutable state together with its two (immutable after
`__init__`) thresholds.  `day` is a calendar-day identifier. -/
structure GuardState where
  maxLossPct : ℚ
  maxLossMoney : ℚ
  day : ℤ
  startEquity : ℚ
  lockedForToday : Bool
deriving DecidableEq, Repr

/-- `float(ai.equity) if ai and ai.equity else 0.0`: the account snapshot
is `none` when `mt5.account_info()` returns `None`, and an equity of `0.0`
is falsy in Python. -/
def equityOrZero (ai : Option ℚ) : ℚ :=
  match ai with
  | none => 0
  | some e => if e = 0 then 0 else e

/-- `DailyLossGuard._reset_if_new_day`, with the wall-clock day and the
account snapshot passed in explicitly. -/
def reset_if_new_day (s : GuardState) (today : ℤ) (ai : Option ℚ) : GuardState :=
  if today ≠ s.day then
    { s with day := today, startEquity := equityOrZero ai, lockedForToday := false }
  else s

/-- `DailyLossGuard.should_block_new_trades`, returning the boolean result
and the updated guard state.  A single account snapshot `ai` per call
models the (sequential, single-threaded) `account_info()` reads made
during one invocation. -/
def should_block_new_trades (s : GuardState) (today : ℤ) (ai : Option ℚ) :
    Bool × GuardState :=
  let s1 := reset_if_new_day s today ai
  if s1.lockedForToday then (true, s1)
  else
    match ai with
    | none => (false, s1)
    | some e =>
      if e = 0 then (false, s1)
      else
        let ddMoney := max 0 (s1.startEquity - e)
        let ddPct := if s1.startEquity > 0 then ddMoney / s1.startEquity * 100 else 0
        if (s1.maxLossMoney > 0 ∧ ddMoney ≥ s1.maxLossMoney)
            ∨ (s1.maxLossPct > 0 ∧ ddPct ≥ s1.maxLossPct) then
          (true, { s1 with lockedForToday := true })
        else (false, s1)

/-- A sequence of guard evaluations: feed each `(today, account)` pair in
order, collecting the boolean answers and the final state. -/
def guardRun (s : GuardState) : List (ℤ × Option ℚ) → List Bool × GuardState
  | [] => ([], s)
  | c :: cs =>
    let r := should_block_new_trades s c.1 c.2
    let rest := guardRun r.2 cs
    (r.1 :: rest.1, rest.2)

/-- A concrete locked guard state (5% daily-loss limit, day 0,
baseline 10000). -/
def gLocked : GuardState := ⟨5, 0, 0, 10000, true⟩

/-- A concrete unlocked guard state (5% daily-loss limit, day 0,
baseline 10000). -/
def gArmed : GuardState := ⟨5, 0, 0, 10000, false⟩

/-! ### Global portfolio-risk budget step (`main`, `run_live.py`) -/

/-- Outcome of the pre-sizing global risk budget check: either the bar is
skipped, or sizing proceeds with the effective risk fraction. -/
inductive BudgetDecision where
  | skip
  | proceed (rf : ℚ)
deriving DecidableEq, Repr

/-- The `max_total_risk_percent` block of the main loop: `remaining =
max(0, cap - used)`; skip when nothing remains, otherwise
`effective = min(risk_fraction*100, remaining) / 100`, skipping when the
effective fraction is not positive. -/
def risk_budget_step (baseRiskFraction maxTotalRiskPercent used : ℚ) : BudgetDecision :=
  if maxTotalRiskPercent > 0 then
    let remaining := max 0 (maxTotalRiskPercent - used)
    if remaining ≤ 0 then BudgetDecision.skip
    else
      let desired := baseRiskFraction * 100
      let effective := min desired remaining / 100
      if effective ≤ 0 then BudgetDecision.skip
      else BudgetDecision.proceed effective
  else BudgetDecision.proceed baseRiskFraction

/-! ### Breakout-with-retest strategy (`src/strategy/breakout_close.py`) -/

namespace BreakoutClose

/-- Constructor parameters of `BreakoutClose`. -/
structure Config where
  lookback : ℕ
  swing_lookback : ℕ
  atr_period : ℕ
  atr_floor_mult : ℚ
  breakout_mode : Mode
  retest_entries : Bool
  retest_window : ℤ
  max_adds : ℕ
deriving DecidableEq, Repr

/-- The mutable retest/pyramiding state (`_last_break_price`,
`_last_break_side`, `_last_break_bar_index`, `_adds_taken`). -/
structure State where
  last_break_price : Option ℚ
  last_break_side : Option Side
  last_break_bar_index : Option ℕ
  adds_taken : ℕ
deriving DecidableEq, Repr

/-- The state set by `__init__`. -/
def State.init : State := ⟨none, none, none, 0⟩

/-- True-range series of `_atr`:
`tr = max(h - l, max(|h - prev_close|, |l - prev_close|))`; the first bar
has no previous close (`NaN` in pandas), so the series starts at index 1. -/
def trSeries (bars : List Bar) : List ℚ :=
  (bars.zip bars.tail).map fun pc =>
    max (pc.2.high - pc.2.low) (max |pc.2.high - pc.1.close| |pc.2.low - pc.1.close|)

/-- `_atr(df, period).iloc[-1]`: rolling mean of the last `period` true
ranges; `none` models the `NaN` of fewer than `period` finite values
(pandas `min_periods=period`) and the invalid window `period = 0`. -/
def atrLast (period : ℕ) (bars : List Bar) : Option ℚ :=
  let trs := trSeries bars
  if 1 ≤ period ∧ period ≤ trs.length then
    some (((trs.drop (trs.length - period)).foldl (fun a b => a + b) 0) / (period : ℚ))
  else none

/-- `_last_swing_low`: minimum of `df["low"].iloc[-(lb+1):-1]`. -/
def last_swing_low (lb : ℕ) (bars : List Bar) : Option ℚ :=
  if bars.length < lb + 2 then none
  else
    match (bars.dropLast.drop (bars.length - 1 - lb)).map Bar.low with
    | [] => none
    | x :: xs => some (xs.foldl min x)

/-- `_last_swing_high`: maximum of `df["high"].iloc[-(lb+1):-1]`. -/
def last_swing_high (lb : ℕ) (bars : List Bar) : Option ℚ :=
  if bars.length < lb + 2 then none
  else
    match (bars.dropLast.drop (bars.length - 1 - lb)).map Bar.high with
    | [] => none
    | x :: xs => some (xs.foldl max x)

/-- `_donchian`: highest high / lowest low over the `lookback` bars ending
at `iloc[-2]`, i.e. excluding the current bar.  `none` models both the
invalid pandas window `lookback = 0` and the `NaN` of insufficient
history. -/
def donchian (lookback : ℕ) (bars : List Bar) : Option (ℚ × ℚ) :=
  if 1 ≤ lookback ∧ lookback + 1 ≤ bars.length then
    match (bars.dropLast.drop (bars.length - 1 - lookback)).map Bar.high,
        (bars.dropLast.drop (bars.length - 1 - lookback)).map Bar.low with
    | h :: hs, l :: ls => some (hs.foldl max h, ls.foldl min l)
    | _, _ => none
  else none

/-- `_compute_sl_tp`: swing-based stop with an ATR floor, clamped to lie
strictly beyond entry by `1e-6`, rejected if not strictly beyond entry;
2R target. -/
def compute_sl_tp (cfg : Config) (side : Side) (entry : ℚ) (bars : List Bar)
    (atrVal : ℚ) : Option (ℚ × ℚ) :=
  let floorDist := cfg.atr_floor_mult * atrVal
  match side with
  | Side.buy =>
    match last_swing_low cfg.swing_lookback bars with
    | none => none
    | some swing =>
      let sl_candidate := max swing (entry - floorDist)
      let sl := min (entry - 1/1000000) sl_candidate
      if sl ≥ entry then none
      else
        let r := entry - sl
        some (sl, entry + 2 * r)
  | Side.sell =>
    match last_swing_high cfg.swing_lookback bars with
    | none => none
    | some swing =>
      let sl_candidate := min swing (entry + floorDist)
      let sl := max (entry + 1/1000000) sl_candidate
      if sl ≤ entry then none
      else
        let r := sl - entry
        some (sl, entry - 2 * r)

/-- `_maybe_retest`: the candidate re-entry (side, entry = last close), if
the recorded breakout level was touched within the retest window and the
add budget remains. -/
def maybe_retest (cfg : Config) (st : State) (bars : List Bar) : Option (Side × ℚ) :=
  if cfg.retest_entries = false then none
  else
    match st.last_break_price, st.last_break_side, st.last_break_bar_index with
    | some bp, some sideb, some bidx =>
      if st.adds_taken ≥ cfg.max_adds then none
      else if ((bars.length : ℤ) - 1 - (bidx : ℤ)) > cfg.retest_window then none
      else
        match bars.getLast? with
        | none => none
        | some b =>
          if b.low ≤ bp ∧ bp ≤ b.high then some (sideb, b.close) else none
    | _, _, _ => none

/-- The primary buy trigger of `on_bar`: in `"close"` mode the close, in
`"intra"` mode the bar high, above the upper channel. -/
def buyTrigger (cfg : Config) (bars : List Bar) : Bool :=
  match donchian cfg.lookback bars, bars.getLast? with
  | some (hi, _), some b =>
    match cfg.breakout_mode with
    | Mode.close => decide (b.close > hi)
    | Mode.intra => decide (b.high > hi)
  | _, _ => false

/-- The primary sell trigger of `on_bar`. -/
def sellTrigger (cfg : Config) (bars : List Bar) : Bool :=
  match donchian cfg.lookback bars, bars.getLast? with
  | some (_, lo), some b =>
    match cfg.breakout_mode with
    | Mode.close => decide (b.close < lo)
    | Mode.intra => decide (b.low < lo)
  | _, _ => false

/-- `on_bar`: the emitted signal (if any) together with the updated
strategy state. -/
def on_bar (cfg : Config) (st : State) (bars : List Bar) : Option Sig × State :=
  if bars.length < max (max cfg.lookback cfg.swing_lookback) cfg.atr_period + 2 then
    (none, st)
  else
    match atrLast cfg.atr_period bars with
    | none => (none, st)
    | some atrVal =>
      if atrVal ≤ 0 then (none, st)
      else
        match donchian cfg.lookback bars, bars.getLast? with
        | some (highest_n, lowest_n), some b =>
          if buyTrigger cfg bars then
            let entry := match cfg.breakout_mode with
              | Mode.close => b.close
              | Mode.intra => max b.close highest_n
            match compute_sl_tp cfg Side.buy entry bars atrVal with
            | none => (none, st)
            | some (sl, tp) =>
              (some ⟨Side.buy, entry, sl, tp⟩,
                ⟨some highest_n, some Side.buy, some (bars.length - 1), 0⟩)
          else if sellTrigger cfg bars then
            let entry := match cfg.breakout_mode with
              | Mode.close => b.close
              | Mode.intra => min b.close lowest_n
            match compute_sl_tp cfg Side.sell entry bars atrVal with
            | none => (none, st)
            | some (sl, tp) =>
              (some ⟨Side.sell, entry, sl, tp⟩,
                ⟨some lowest_n, some Side.sell, some (bars.length - 1), 0⟩)
          else
            match maybe_retest cfg st bars with
            | none => (none, st)
            | some (sideb, price) =>
              match compute_sl_tp cfg sideb price bars atrVal with
              | none => (none, st)
              | some (sl, tp) =>
                (some ⟨sideb, price, sl, tp⟩, { st with adds_taken := st.adds_taken + 1 })
        | _, _ => (none, st)

end BreakoutClose

/-- Scenario D configuration: `lookback = 10` in `"intra"` mode, with the
class-default swing lookback 3, ATR period 14, floor multiplier 0.25,
retests on (window 5, one add). -/
def cfgD : BreakoutClose.Config := ⟨10, 3, 14, 1/4, Mode.intra, true, 5, 1⟩

/-- Scenario D bar series: fifteen flat bars at 100, then a bar whose high
pokes one point above the flat ten-bar prior channel while the last three
prior lows (the swing) sit exactly at the entry level. -/
def barsD : List Bar :=
  [⟨100, 100, 100⟩, ⟨100, 100, 100⟩, ⟨100, 100, 100⟩, ⟨100, 100, 100⟩,
   ⟨100, 100, 100⟩, ⟨100, 100, 100⟩, ⟨100, 100, 100⟩, ⟨100, 100, 100⟩,
   ⟨100, 100, 100⟩, ⟨100, 100, 100⟩, ⟨100, 100, 100⟩, ⟨100, 100, 100⟩,
   ⟨100, 100, 100⟩, ⟨100, 100, 100⟩, ⟨100, 100, 100⟩, ⟨101, 100, 100⟩]

/-! ### Trend-filtered Donchian strategy (`src/strategy/donchian_breakout.py`) -/

namespace DonchianBreakout

/-- The `DonchianParams` dataclass. -/
structure Params where
  lookback : ℕ
  atr_period : ℕ
  rr : ℚ
  ema_filter : Option ℕ
  breakout_mode : Mode
  atr_floor_mult : ℚ
deriving DecidableEq, Repr

/-- Trend bias of `_passes_trend_filter` (`"long"` / `"short"`). -/
inductive Bias where
  | long
  | short
deriving DecidableEq, Repr

/-- `_ema(s, period).iloc[-1]`: `ewm(span=period, adjust=False)`, i.e.
alpha = 2/(period+1), seeded with the first value. -/
def emaLast (period : ℕ) (xs : List ℚ) : Option ℚ :=
  match xs with
  | [] => none
  | x :: rest =>
    let a := 2 / ((period : ℚ) + 1)
    some (rest.foldl (fun acc v => (1 - a) * acc + a * v) x)

/-- True-range series of `_atr`: `tr1 = |h-l|`, `tr2 = |h-prev_close|`,
`tr3 = |l-prev_close|`, row-max taken with pandas default `skipna`, so the
first row reduces to `|h - l|`. -/
def trSeries (bars : List Bar) : List ℚ :=
  match bars with
  | [] => []
  | b0 :: _ =>
    |b0.high - b0.low| ::
      (bars.zip bars.tail).map fun pc =>
        max |pc.2.high - pc.2.low| (max |pc.2.high - pc.1.close| |pc.2.low - pc.1.close|)

/-- `_atr(df, period).iloc[-1]`: Wilder smoothing,
`ewm(alpha=1/period, adjust=False)` over the true ranges (undefined for
`period = 0`, where the Python would divide by zero). -/
def atrLast (period : ℕ) (bars : List Bar) : Option ℚ :=
  if period = 0 then none
  else
    let a := 1 / (period : ℚ)
    match trSeries bars with
    | [] => none
    | t :: ts => some (ts.foldl (fun acc v => (1 - a) * acc + a * v) t)

/-- `_compute_bands`: rolling max/min over the `lookback` bars ending at
`iloc[-2]` (current bar excluded); `none` models `NaN`/invalid window. -/
def compute_bands (lookback : ℕ) (bars : List Bar) : Option (ℚ × ℚ) :=
  if 1 ≤ lookback ∧ lookback + 1 ≤ bars.length then
    match (bars.dropLast.drop (bars.length - 1 - lookback)).map Bar.high,
        (bars.dropLast.drop (bars.length - 1 - lookback)).map Bar.low with
    | h :: hs, l :: ls => some (hs.foldl max h, ls.foldl min l)
    | _, _ => none
  else none

/-- `_passes_trend_filter`: `(ok, bias)`; a disabled filter (`None` or 0)
passes with no bias, otherwise the close is compared with the EMA. -/
def passes_trend_filter (P : Params) (bars : List Bar) : Bool × Option Bias :=
  match P.ema_filter with
  | none => (true, none)
  | some p =>
    if p = 0 then (true, none)
    else
      match emaLast p (bars.map Bar.close), bars.getLast? with
      | some e, some b =>
        if b.close > e then (true, some Bias.long)
        else if b.close < e then (true, some Bias.short)
        else (false, none)
      | _, _ => (false, none)

/-- `_make_signal`: optional ATR floor, reject non-positive ATR, then
stop = entry ∓ ATR and target = entry ± rr·ATR. -/
def make_signal (P : Params) (side : Side) (entry atrVal : ℚ) : Option Sig :=
  let atr2 := if P.atr_floor_mult ≠ 0 ∧ P.atr_floor_mult > 0
    then max atrVal (P.atr_floor_mult * entry / 10000) else atrVal
  if atr2 ≤ 0 then none
  else
    match side with
    | Side.buy => some ⟨Side.buy, entry, entry - atr2, entry + P.rr * atr2⟩
    | Side.sell => some ⟨Side.sell, entry, entry + atr2, entry - P.rr * atr2⟩

/-- `on_bar` of the trend-filtered Donchian strategy (stateless). -/
def on_bar (P : Params) (bars : List Bar) : Option Sig :=
  if bars.length < max (max (P.lookback + 1) (P.atr_period + 2)) (P.ema_filter.getD 0 + 2)
  then none
  else
    let tf := passes_trend_filter P bars
    if tf.1 = false then none
    else
      match compute_bands P.lookback bars, bars.getLast? with
      | some (hi, lo), some b =>
        let px_high := match P.breakout_mode with
          | Mode.intra => b.high
          | Mode.close => b.close
        let px_low := match P.breakout_mode with
          | Mode.intra => b.low
          | Mode.close => b.close
        match atrLast P.atr_period bars with
        | none => none
        | some atrVal =>
          let entry := b.close
          if (tf.2 = none ∨ tf.2 = some Bias.long) ∧ px_high > hi then
            make_signal P Side.buy entry atrVal
          else if (tf.2 = none ∨ tf.2 = some Bias.short) ∧ px_low < lo then
            make_signal P Side.sell entry atrVal
          else none
      | _, _ => none

end DonchianBreakout

/-- Concrete trend-filter parameters: lookback 1, ATR period 1, reward 2,
EMA filter period 2, close mode, no ATR floor. -/
def pW : DonchianBreakout.Params := ⟨1, 1, 2, some 2, Mode.close, 0⟩

/-- Four flat bars at 1, whose close equals their EMA. -/
def barsW : List Bar := [⟨1, 1, 1⟩, ⟨1, 1, 1⟩, ⟨1, 1, 1⟩, ⟨1, 1, 1⟩]

/-- `pyRound` of an integer is that integer. -/
theorem pyRound_intCast (k : ℤ) : pyRound (k:ℚ) = k := by
  unfold pyRound
  rw [Int.floor_intCast]
  norm_num

/-- Evaluation rule for `round_to_step` when the quotient is the exact
integer `n` and the rounded value scales to an integer at six decimals. -/
theorem round_to_step_exact (value step : ℚ) (n k : ℤ) (hstep : 0 < step)
    (hq : value / step = (n:ℚ)) (h6 : (n:ℚ) * step * 1000000 = (k:ℚ)) :
    round_to_step value step = (n:ℚ) * step := by
  unfold round_to_step
  rw [if_neg (not_le.mpr hstep), hq, pyRound_intCast]
  unfold pyRound6
  rw [h6, pyRound_intCast, ← h6]
  field_simp

/-- Evaluation helper: the stop distance of Scenarios A and B. -/
theorem abs_scenarioA : |(11:ℚ)/10 - 219/200| = 1/200 := by
  rw [show (11:ℚ)/10 - 219/200 = 1/200 by norm_num]
  exact abs_of_pos (by norm_num)

/-- Evaluation helper: absolute value of the positive literal 1/200. -/
theorem abs_one_twohundredth : |(1:ℚ)/200| = 1/200 := abs_of_pos (by norm_num)

/-- Evaluation helper: the Scenario A per-lot loss. -/
theorem lossPerLot_scenarioA : lossPerLot siA (11/10) (219/200) = 50 := by
  simp only [lossPerLot, abs_scenarioA]
  norm_num [eff_tick_size, eff_tick_value, siA]

/-- Evaluation helper: rounding 2.0 lots to the 0.01 step returns 2.0. -/
theorem round_two : round_to_step (2:ℚ) (1/100) = 2 := by
  rw [round_to_step_exact (2:ℚ) (1/100) 200 2000000 (by norm_num) (by norm_num) (by norm_num)]
  norm_num

/-- Evaluation helper: rounding the Scenario A raw volume to the 0.01 step. -/
theorem round_scenarioA :
    round_to_step ((10000 * (1/100)) / lossPerLot siA (11/10) (219/200)) (eff_volume_step siA) = 2 := by
  rw [lossPerLot_scenarioA, show (10000:ℚ) * (1/100) / 50 = 2 by norm_num,
    show eff_volume_step siA = 1/100 by norm_num [eff_volume_step, siA]]
  exact round_two

/-- Evaluation helper: the Scenario A volume returned by the sizing routine. -/
theorem calc_scenarioA :
    calc_volume_for_risk (some siA) (some 10000) (11/10) (219/200) (1/100) = some 2 := by
  norm_num [calc_volume_for_risk, finalVolume, lossPerLot, eff_tick_size, eff_tick_value,
    eff_volume_min, eff_volume_max, eff_volume_step, siA, abs_scenarioA,
    abs_one_twohundredth, round_two]

/-- C3: `calc_volume_for_risk` follows the documented formula chain, and on
Scenario A (equity 10000, entry 1.1000, stop 1.0950, risk 1%) the
loss per lot is 50, the risk money is 100, the rounded raw volume is 2 and
the returned volume is exactly 2.00. -/
theorem calc_volume_scenarioA_exact :
    lossPerLot siA (11/10) (219/200) = 50 ∧
    (10000 : ℚ) * (1/100) = 100 ∧
    round_to_step ((10000 * (1/100)) / lossPerLot siA (11/10) (219/200)) (eff_volume_step siA) = 2 ∧
    calc_volume_for_risk (some siA) (some 10000) (11/10) (219/200) (1/100) = some 2 :=
  ⟨lossPerLot_scenarioA, by norm_num, round_scenarioA, calc_scenarioA⟩

/-- Half-even rounding lands within one half of the argument. -/
theorem abs_pyRound_sub_le (x : ℚ) : |(pyRound x : ℚ) - x| ≤ 1/2 := by
  have h1 : ((⌊x⌋ : ℤ) : ℚ) ≤ x := Int.floor_le x
  have h2 : x < (⌊x⌋ : ℚ) + 1 := Int.lt_floor_add_one x
  unfold pyRound
  split_ifs with ha hb hc
  · rw [abs_sub_comm, abs_of_nonneg (by linarith)]
    linarith
  · push_cast
    rw [abs_of_nonneg (by linarith)]
    linarith
  · have hmid : x - (⌊x⌋ : ℚ) = 1/2 := le_antisymm (not_lt.mp hb) (not_lt.mp ha)
    rw [abs_sub_comm, abs_of_nonneg (by linarith)]
    linarith
  · have hmid : x - (⌊x⌋ : ℚ) = 1/2 := le_antisymm (not_lt.mp hb) (not_lt.mp ha)
    push_cast
    rw [abs_of_nonneg (by linarith)]
    linarith

/-- `pyRound6` is the identity on values that are exact at six decimals. -/
theorem pyRound6_of_mul_int (y : ℚ) (k : ℤ) (h : y * 1000000 = (k:ℚ)) :
    pyRound6 y = y := by
  unfold pyRound6
  rw [h, pyRound_intCast, eq_comm, eq_div_iff (by norm_num : (1000000:ℚ) ≠ 0), h]

/-- Rounding to a positive step that is itself exact at six decimals moves
the value by at most half a step. -/
theorem round_to_step_half (value step : ℚ) (hstep : 0 < step)
    (hint : ∃ m : ℤ, step * 1000000 = (m:ℚ)) :
    |round_to_step value step - value| ≤ step / 2 := by
  obtain ⟨m, hm⟩ := hint
  unfold round_to_step
  rw [if_neg (not_le.mpr hstep)]
  have hid : pyRound6 ((pyRound (value/step) : ℚ) * step)
      = (pyRound (value/step) : ℚ) * step := by
    refine pyRound6_of_mul_int _ (pyRound (value/step) * m) ?_
    push_cast
    rw [mul_assoc, hm]
  rw [hid]
  have hb := abs_pyRound_sub_le (value / step)
  have hsplit : (pyRound (value/step) : ℚ) * step - value
      = ((pyRound (value/step) : ℚ) - value/step) * step := by
    field_simp
  rw [hsplit, abs_mul, abs_of_pos hstep]
  calc |(pyRound (value/step) : ℚ) - value/step| * step
      ≤ (1/2) * step := mul_le_mul_of_nonneg_right hb hstep.le
    _ = step / 2 := by ring

/-- C4 (amended): when no broker clamp binds — the rounded volume already
lies inside `[volume_min, volume_max]`, is positive, and the step is a
positive multiple of 0.000001 — the sizing output times the per-lot loss
approximates `equity * risk_fraction` within one step's worth of loss. -/
theorem calc_volume_risk_bound_without_clamping :
    ∀ (s : SymbolInfo) (equity entry stop rf : ℚ),
      0 < rf → 0 < equity →
      0 < eff_tick_size s → 0 < eff_tick_value s → 0 < |entry - stop| →
      0 < eff_volume_step s → (∃ m : ℤ, eff_volume_step s * 1000000 = (m:ℚ)) →
      eff_volume_min s ≤ round_to_step ((equity * rf) / lossPerLot s entry stop) (eff_volume_step s) →
      round_to_step ((equity * rf) / lossPerLot s entry stop) (eff_volume_step s) ≤ eff_volume_max s →
      0 < round_to_step ((equity * rf) / lossPerLot s entry stop) (eff_volume_step s) →
      calc_volume_for_risk (some s) (some equity) entry stop rf
        = some (round_to_step ((equity * rf) / lossPerLot s entry stop) (eff_volume_step s)) ∧
      |round_to_step ((equity * rf) / lossPerLot s entry stop) (eff_volume_step s)
          * lossPerLot s entry stop - equity * rf|
        ≤ eff_volume_step s * lossPerLot s entry stop := by
  intro s equity entry stop rf hrf heq hts htv hdist hstep hint hmin hmax hpos
  have hlpl : 0 < lossPerLot s entry stop := by
    unfold lossPerLot
    exact mul_pos (div_pos hdist hts) htv
  have hfv : finalVolume s equity entry stop rf
      = round_to_step ((equity * rf) / lossPerLot s entry stop) (eff_volume_step s) := by
    simp only [finalVolume]
    rw [if_neg (not_lt.mpr hmin), if_neg (not_lt.mpr hmax)]
  constructor
  · simp only [calc_volume_for_risk]
    rw [if_neg (not_le.mpr hrf),
      if_neg (not_or.mpr ⟨not_le.mpr hts, not_le.mpr htv⟩),
      if_neg (not_le.mpr hdist), if_neg (not_le.mpr hlpl), hfv,
      if_neg (not_le.mpr hpos)]
  · have hhalf := round_to_step_half ((equity * rf) / lossPerLot s entry stop)
      (eff_volume_step s) hstep hint
    have hraw : ((equity * rf) / lossPerLot s entry stop) * lossPerLot s entry stop
        = equity * rf := div_mul_cancel₀ _ (ne_of_gt hlpl)
    have hsplit : round_to_step ((equity * rf) / lossPerLot s entry stop) (eff_volume_step s)
          * lossPerLot s entry stop - equity * rf
        = (round_to_step ((equity * rf) / lossPerLot s entry stop) (eff_volume_step s)
          - (equity * rf) / lossPerLot s entry stop) * lossPerLot s entry stop := by
      rw [sub_mul, hraw]
    rw [hsplit, abs_mul, abs_of_pos hlpl]
    calc |round_to_step ((equity * rf) / lossPerLot s entry stop) (eff_volume_step s)
          - (equity * rf) / lossPerLot s entry stop| * lossPerLot s entry stop
        ≤ (eff_volume_step s / 2) * lossPerLot s entry stop :=
          mul_le_mul_of_nonneg_right hhalf hlpl.le
      _ ≤ eff_volume_step s * lossPerLot s entry stop := by
          have := hstep.le
          nlinarith [hlpl.le]

/-- Witness for C4 (amended) at the Scenario A inputs, where no clamp binds. -/
theorem calc_volume_risk_bound_without_clamping_witness :
    calc_volume_for_risk (some siA) (some 10000) (11/10) (219/200) (1/100)
      = some (round_to_step ((10000 * (1/100)) / lossPerLot siA (11/10) (219/200)) (eff_volume_step siA)) ∧
    |round_to_step ((10000 * (1/100)) / lossPerLot siA (11/10) (219/200)) (eff_volume_step siA)
        * lossPerLot siA (11/10) (219/200) - 10000 * (1/100)|
      ≤ eff_volume_step siA * lossPerLot siA (11/10) (219/200) :=
  calc_volume_risk_bound_without_clamping siA 10000 (11/10) (219/200) (1/100)
    (by norm_num) (by norm_num)
    (by norm_num [eff_tick_size, siA]) (by norm_num [eff_tick_value, siA])
    (by rw [abs_scenarioA]; norm_num)
    (by norm_num [eff_volume_step, siA])
    ⟨10000, by norm_num [eff_volume_step, siA]⟩
    (by rw [lossPerLot_scenarioA, show (10000:ℚ) * (1/100) / 50 = 2 by norm_num,
          show eff_volume_step siA = 1/100 by norm_num [eff_volume_step, siA], round_two]
        norm_num [eff_volume_min, siA])
    (by rw [lossPerLot_scenarioA, show (10000:ℚ) * (1/100) / 50 = 2 by norm_num,
          show eff_volume_step siA = 1/100 by norm_num [eff_volume_step, siA], round_two]
        norm_num [eff_volume_max, siA])
    (by rw [lossPerLot_scenarioA, show (10000:ℚ) * (1/100) / 50 = 2 by norm_num,
          show eff_volume_step siA = 1/100 by norm_num [eff_volume_step, siA], round_two]
        norm_num)

/-- Evaluation helper: the stop distance of the clamping counterexample. -/
theorem abs_counterexC : |(11:ℚ)/10 - 10999/10000| = 1/10000 := by
  rw [show (11:ℚ)/10 - 10999/10000 = 1/10000 by norm_num]
  exact abs_of_pos (by norm_num)

/-- Evaluation helper: absolute value of the positive literal 1/10000. -/
theorem abs_one_tenthousandth : |(1:ℚ)/10000| = 1/10000 := abs_of_pos (by norm_num)

/-- Evaluation helper: the counterexample per-lot loss is 1. -/
theorem lossPerLot_counterexC : lossPerLot siC (11/10) (10999/10000) = 1 := by
  simp only [lossPerLot, abs_counterexC]
  norm_num [eff_tick_size, eff_tick_value, siC]

/-- Evaluation helper: rounding 100 lots to the 0.01 step returns 100. -/
theorem round_hundred : round_to_step (100:ℚ) (1/100) = 100 := by
  rw [round_to_step_exact (100:ℚ) (1/100) 10000 100000000 (by norm_num) (by norm_num) (by norm_num)]
  norm_num

/-- C4 (counterexample): with risk_fraction 1%, equity 10000, a one-tick
stop distance and a broker volume_max of 1 lot, the returned volume is the
clamped 1 lot, whose loss at the stop (1) misses `equity * risk_fraction`
(100) by far more than one volume-step's worth of loss (0.01). -/
theorem calc_volume_risk_bound_counterexample :
    (0:ℚ) < 1/100 ∧ (0:ℚ) < 10000 ∧ 0 < eff_tick_size siC ∧ 0 < eff_tick_value siC ∧
    (0:ℚ) < |(11:ℚ)/10 - 10999/10000| ∧
    calc_volume_for_risk (some siC) (some 10000) (11/10) (10999/10000) (1/100) = some 1 ∧
    ¬ (|1 * lossPerLot siC (11/10) (10999/10000) - 10000 * (1/100)|
        ≤ eff_volume_step siC * lossPerLot siC (11/10) (10999/10000)) := by
  refine ⟨by norm_num, by norm_num, by norm_num [eff_tick_size, siC],
    by norm_num [eff_tick_value, siC], by rw [abs_counterexC]; norm_num, ?_, ?_⟩
  · norm_num [calc_volume_for_risk, finalVolume, lossPerLot, eff_tick_size, eff_tick_value,
      eff_volume_min, eff_volume_max, eff_volume_step, siC, abs_counterexC,
      abs_one_tenthousandth, round_hundred]
  · rw [lossPerLot_counterexC, show (1:ℚ) * 1 - 10000 * (1/100) = -99 by norm_num,
      show |(-99:ℚ)| = 99 by rw [abs_of_nonpos (by norm_num : (-99:ℚ) ≤ 0)]; norm_num]
    norm_num [eff_volume_step, siC]

/-- C8: the sizing routine returns "unavailable" exactly when one of the
documented failure conditions holds (risk_fraction ≤ 0, missing symbol
rules, missing account snapshot, non-positive tick economics, zero stop
distance, non-positive loss per lot, non-positive final volume), and in
Scenario B (Scenario A inputs with tick_value 0) it returns none. -/
theorem calc_volume_none_iff_failure :
    (∀ (si : Option SymbolInfo) (ai : Option ℚ) (entry stop rf : ℚ),
      calc_volume_for_risk si ai entry stop rf = none ↔ sizingFails si ai entry stop rf) ∧
    calc_volume_for_risk (some siB) (some 10000) (11/10) (219/200) (1/100) = none := by
  constructor
  · intro si ai entry stop rf
    cases si with
    | none => simp [calc_volume_for_risk, sizingFails, ite_self]
    | some s =>
      cases ai with
      | none => simp [calc_volume_for_risk, sizingFails, ite_self]
      | some e =>
        simp only [calc_volume_for_risk]
        split_ifs with h1 h2 h3 h4 h5
        · exact iff_of_true rfl (Or.inl h1)
        · exact iff_of_true rfl (Or.inr (Or.inr (Or.inr (Or.inl ⟨s, rfl, h2⟩))))
        · exact iff_of_true rfl
            (Or.inr (Or.inr (Or.inr (Or.inr (Or.inl (le_antisymm h3 (abs_nonneg _)))))))
        · exact iff_of_true rfl
            (Or.inr (Or.inr (Or.inr (Or.inr (Or.inr ⟨s, e, rfl, rfl, Or.inl h4⟩)))))
        · exact iff_of_true rfl
            (Or.inr (Or.inr (Or.inr (Or.inr (Or.inr ⟨s, e, rfl, rfl, Or.inr h5⟩)))))
        · refine iff_of_false (by simp) ?_
          simp only [sizingFails]
          push_neg
          refine ⟨not_le.mp h1, by simp, by simp, ?_, ?_, ?_⟩
          · rintro s' hs'
            injection hs' with hss
            subst hss
            rcases not_or.mp h2 with ⟨ha, hb⟩
            exact ⟨not_le.mp ha, not_le.mp hb⟩
          · intro habs
            exact h3 (le_of_eq habs)
          · rintro s' e' hs' he'
            injection hs' with hss
            injection he' with hee
            subst hss
            subst hee
            exact ⟨not_le.mp h4, not_le.mp h5⟩
  · norm_num [calc_volume_for_risk, eff_tick_size, eff_tick_value, siB]

/-- While locked and still on the stored calendar day, one evaluation
returns `true` and leaves the state untouched. -/
theorem should_block_locked_same_day (s : GuardState) (today : ℤ) (ai : Option ℚ)
    (hl : s.lockedForToday = true) (hd : today = s.day) :
    should_block_new_trades s today ai = (true, s) := by
  simp [should_block_new_trades, reset_if_new_day, hd, hl]

/-- Resetting twice with the same wall-clock day is the same as once. -/
theorem reset_if_new_day_idem (s : GuardState) (today : ℤ) (ai : Option ℚ) :
    reset_if_new_day (reset_if_new_day s today ai) today ai
      = reset_if_new_day s today ai := by
  by_cases h : today = s.day
  · have hid : reset_if_new_day s today ai = s := by
      unfold reset_if_new_day
      rw [if_neg (by simp [h])]
    rw [hid, hid]
  · have h1 : reset_if_new_day s today ai
        = { s with day := today, startEquity := equityOrZero ai, lockedForToday := false } := by
      unfold reset_if_new_day
      rw [if_pos h]
    rw [h1]
    unfold reset_if_new_day
    rw [if_neg (by simp)]

/-- A guard evaluation factors through the day reset: evaluating from `s`
is the same as evaluating from the already-reset state. -/
theorem should_block_eq_reset (s : GuardState) (today : ℤ) (ai : Option ℚ) :
    should_block_new_trades s today ai
      = should_block_new_trades (reset_if_new_day s today ai) today ai := by
  unfold should_block_new_trades
  rw [reset_if_new_day_idem]

/-- An unlocked guard whose baseline is exactly the current snapshot (and
whose stored day is today) reports no drawdown: it answers `false` and the
state is unchanged. -/
theorem should_block_armed_baseline (s2 : GuardState) (today : ℤ) (ai : Option ℚ)
    (hl : s2.lockedForToday = false) (hd : today = s2.day)
    (hbase : s2.startEquity = equityOrZero ai) :
    should_block_new_trades s2 today ai = (false, s2) := by
  have hres : reset_if_new_day s2 today ai = s2 := by
    unfold reset_if_new_day
    rw [if_neg (by simp [hd])]
  unfold should_block_new_trades
  rw [hres]
  dsimp only
  rw [hl, if_neg Bool.false_ne_true]
  cases ai with
  | none => rfl
  | some e =>
    dsimp only
    by_cases he : e = 0
    · rw [if_pos he]
    · rw [if_neg he]
      have hb : s2.startEquity = e := by
        rw [hbase]
        simp [equityOrZero, he]
      rw [hb, sub_self, max_self, zero_div, zero_mul, ite_self]
      have hcond : ¬ ((s2.maxLossMoney > 0 ∧ (0:ℚ) ≥ s2.maxLossMoney)
          ∨ (s2.maxLossPct > 0 ∧ (0:ℚ) ≥ s2.maxLossPct)) := by
        rintro (⟨h1, h2⟩ | ⟨h1, h2⟩) <;> linarith
      rw [if_neg hcond]

/-- C2: once `locked` is true, every later call within the same calendar
day answers `true` (blocking new entries) whatever the account snapshot
shows; and the first call on a different calendar day resets the stored
day, sets `locked` to false, and re-baselines the equity to the current
snapshot (`equityOrZero ai`, which is the current equity whenever the
snapshot is available), regardless of the prior state. -/
theorem dailyLossGuard_lock_persists_and_new_day_resets :
    (∀ (s : GuardState) (calls : List (ℤ × Option ℚ)),
      s.lockedForToday = true → (∀ c ∈ calls, c.1 = s.day) →
      (guardRun s calls).1 = calls.map (fun _ => true)) ∧
    (∀ (s : GuardState) (today : ℤ) (ai : Option ℚ), today ≠ s.day →
      ((should_block_new_trades s today ai).2.day = today ∧
       (should_block_new_trades s today ai).2.lockedForToday = false ∧
       (should_block_new_trades s today ai).2.startEquity = equityOrZero ai ∧
       (∀ e, ai = some e → (should_block_new_trades s today ai).2.startEquity = e))) := by
  constructor
  · intro s calls
    induction calls generalizing s with
    | nil =>
      intro _ _
      rfl
    | cons c cs ih =>
      intro hl hc
      have hd : c.1 = s.day := hc c (List.mem_cons_self c cs)
      rw [guardRun, should_block_locked_same_day s c.1 c.2 hl hd]
      simp only [List.map_cons, List.cons.injEq]
      exact ⟨trivial, ih s hl (fun c2 hc2 => hc c2 (List.mem_cons_of_mem c hc2))⟩
  · intro s today ai hd
    have hres : reset_if_new_day s today ai
        = { s with day := today, startEquity := equityOrZero ai, lockedForToday := false } := by
      unfold reset_if_new_day
      rw [if_pos hd]
    have harm := should_block_armed_baseline (reset_if_new_day s today ai) today ai
      (by rw [hres]) (by rw [hres]) (by rw [hres])
    rw [should_block_eq_reset, harm, hres]
    refine ⟨rfl, rfl, rfl, ?_⟩
    intro e2 he2
    subst he2
    by_cases h0 : e2 = 0
    · simp [equityOrZero, h0]
    · simp [equityOrZero, h0]

/-- Witness for C2: a locked guard keeps answering `true` on a same-day
call, and a new-day call unlocks it. -/
theorem dailyLossGuard_lock_persists_and_new_day_resets_witness :
    (guardRun gLocked [(0, some 99999)]).1 = [true] ∧
    (should_block_new_trades gLocked 1 (some 7)).2.lockedForToday = false :=
  ⟨dailyLossGuard_lock_persists_and_new_day_resets.1 gLocked [(0, some 99999)
      ] rfl (by
        intro c hc
        simp only [List.mem_singleton] at hc
        rw [hc]
        rfl),
    (dailyLossGuard_lock_persists_and_new_day_resets.2 gLocked 1 (some 7) (by decide)).2.1⟩

/-- C10: with the guard unlocked, the calendar day unchanged and the
account snapshot missing or showing zero (falsy) equity, the guard
answers `false` — it fails open and permits new entries — and the state
is unchanged. -/
theorem guard_fails_open_on_missing_equity :
    ∀ (s : GuardState) (today : ℤ) (ai : Option ℚ),
      s.lockedForToday = false → today = s.day →
      (ai = none ∨ ai = some 0) →
      should_block_new_trades s today ai = (false, s) := by
  intro s today ai hl hd hai
  have hres : reset_if_new_day s today ai = s := by
    unfold reset_if_new_day
    rw [if_neg (by simp [hd])]
  rcases hai with h | h <;> subst h <;> simp [should_block_new_trades, hres, hl]

/-- Witness for C10 at a concrete armed state with a missing snapshot. -/
theorem guard_fails_open_on_missing_equity_witness :
    should_block_new_trades gArmed 0 none = (false, gArmed) :=
  guard_fails_open_on_missing_equity gArmed 0 none rfl rfl (Or.inl rfl)

/-- C7: with a configured (positive) global cap and a positive base risk
fraction, the budget step skips the bar whenever the used portfolio risk
is at or above the cap, and otherwise proceeds with the effective fraction
`min(base_risk_fraction, remaining_budget)`; on Scenario E
(used 2.5%, cap 3%, base 1%) the effective fraction is 0.5%. -/
theorem global_risk_budget_effective_fraction :
    (∀ (base cap used : ℚ), 0 < cap → 0 < base →
      ((cap ≤ used → risk_budget_step base cap used = BudgetDecision.skip) ∧
       (used < cap →
         risk_budget_step base cap used
           = BudgetDecision.proceed (min base ((cap - used)/100))))) ∧
    risk_budget_step (1/100) 3 (5/2) = BudgetDecision.proceed (1/200) := by
  constructor
  · intro base cap used hcap hbase
    constructor
    · intro hused
      simp only [risk_budget_step]
      rw [if_pos hcap]
      have hrem : max (0:ℚ) (cap - used) = 0 := max_eq_left (by linarith)
      rw [hrem, if_pos (le_refl (0:ℚ))]
    · intro hused
      simp only [risk_budget_step]
      rw [if_pos hcap]
      have hrem : max (0:ℚ) (cap - used) = cap - used := max_eq_right (by linarith)
      rw [hrem, if_neg (by linarith : ¬ (cap - used ≤ 0))]
      have heff : min (base * 100) (cap - used) / 100 = min base ((cap - used)/100) := by
        rcases le_total (base * 100) (cap - used) with h | h
        · rw [min_eq_left h, min_eq_left (by linarith)]
          ring
        · rw [min_eq_right h, min_eq_right (by linarith)]
      have hpos : 0 < min (base * 100) (cap - used) / 100 := by
        apply div_pos _ (by norm_num : (0:ℚ) < 100)
        exact lt_min (by linarith) (by linarith)
      rw [if_neg (not_le.mpr hpos), heff]
  · norm_num [risk_budget_step, max_def, min_def]

/-- Witness for C7 applied at the Scenario E numbers. -/
theorem global_risk_budget_effective_fraction_witness :
    risk_budget_step (1/100) 3 (5/2)
      = BudgetDecision.proceed (min (1/100) ((3 - 5/2)/100)) :=
  (global_risk_budget_effective_fraction.1 (1/100) 3 (5/2)
    (by norm_num) (by norm_num)).2 (by norm_num)

/-- C5: the Donchian channel of both strategy variants reads only the bars
before the current one — replacing the current (last) bar by any other bar
leaves the channel unchanged. -/
theorem donchian_excludes_current_bar :
    ∀ (lookback : ℕ) (bars : List Bar) (b1 b2 : Bar),
      BreakoutClose.donchian lookback (bars ++ [b1])
        = BreakoutClose.donchian lookback (bars ++ [b2]) ∧
      DonchianBreakout.compute_bands lookback (bars ++ [b1])
        = DonchianBreakout.compute_bands lookback (bars ++ [b2]) := by
  intro lookback bars b1 b2
  have hdl1 : (bars ++ [b1]).dropLast = bars := by simp
  have hdl2 : (bars ++ [b2]).dropLast = bars := by simp
  have hlen1 : (bars ++ [b1]).length = bars.length + 1 := by simp
  have hlen2 : (bars ++ [b2]).length = bars.length + 1 := by simp
  constructor
  · unfold BreakoutClose.donchian
    rw [hdl1, hdl2, hlen1, hlen2]
  · unfold DonchianBreakout.compute_bands
    rw [hdl1, hdl2, hlen1, hlen2]

/-- Evaluation helper: Scenario D true ranges (fourteen flat pairs, then
the breakout bar's range 1). -/
theorem trSeries_D : BreakoutClose.trSeries barsD
    = [0, 0, 0, 0, 0, 0, 0, 0, 0, 0, 0, 0, 0, 0, 1] := by
  norm_num [BreakoutClose.trSeries, barsD, max_def, abs_of_nonneg]

/-- Evaluation helper: the Scenario D ATR over the default 14 bars. -/
theorem atrLast_D : BreakoutClose.atrLast 14 barsD = some (1/14) := by
  norm_num [BreakoutClose.atrLast, trSeries_D, List.foldl]

/-- Evaluation helper: the Scenario D ten-bar prior channel is flat
at 100. -/
theorem donchian_D : BreakoutClose.donchian 10 barsD = some (100, 100) := by
  norm_num [BreakoutClose.donchian, barsD, List.foldl, max_def, min_def]

/-- Evaluation helper: the Scenario D three-bar prior swing low is 100. -/
theorem last_swing_low_D : BreakoutClose.last_swing_low 3 barsD = some 100 := by
  norm_num [BreakoutClose.last_swing_low, barsD, List.foldl, min_def]

/-- Evaluation helper: the Scenario D current bar. -/
theorem getLast_D : barsD.getLast? = some ⟨101, 100, 100⟩ := by
  norm_num [barsD, List.getLast?]

/-- Evaluation helper: the Scenario D intrabar buy trigger fires (bar high
101 above the prior channel 100). -/
theorem buyTrigger_D : BreakoutClose.buyTrigger cfgD barsD = true := by
  norm_num [BreakoutClose.buyTrigger, donchian_D, getLast_D, cfgD]

/-- Evaluation helper: the Scenario D sell trigger does not fire. -/
theorem sellTrigger_D : BreakoutClose.sellTrigger cfgD barsD = false := by
  norm_num [BreakoutClose.sellTrigger, donchian_D, getLast_D, cfgD]

/-- Evaluation helper: the Scenario D stop/target derivation clamps the
invalid swing stop (100, not strictly below entry 100) to `entry - 1e-6`
and still returns a stop/target pair. -/
theorem compute_sl_tp_D :
    BreakoutClose.compute_sl_tp cfgD Side.buy 100 barsD (1/14)
      = some (100 - 1/1000000, 100 + 2/1000000) := by
  norm_num [BreakoutClose.compute_sl_tp, last_swing_low_D, cfgD, max_def, min_def]

/-- Evaluation helper: the full Scenario D bar evaluation emits a buy
signal with the clamped stop and resets the retest state. -/
theorem on_bar_D :
    BreakoutClose.on_bar cfgD BreakoutClose.State.init barsD
      = (some ⟨Side.buy, 100, 100 - 1/1000000, 100 + 2/1000000⟩,
         ⟨some 100, some Side.buy, some 15, 0⟩) := by
  have hlen : barsD.length = 16 := by norm_num [barsD]
  have hlb : cfgD.lookback = 10 := rfl
  have hsw : cfgD.swing_lookback = 3 := rfl
  have hap : cfgD.atr_period = 14 := rfl
  have hmode : cfgD.breakout_mode = Mode.intra := rfl
  norm_num [BreakoutClose.on_bar, hlen, hlb, hsw, hap, hmode, atrLast_D, donchian_D,
    getLast_D, buyTrigger_D, sellTrigger_D, compute_sl_tp_D, max_self]

/-- C1 (counterexample): in Scenario D (lookback 10, intrabar mode, bar
high above the ten-bar prior high, swing-based stop candidate at the
entry, hence not strictly beyond it) the evaluation still emits a buy
signal — with the stop clamped to `entry - 1e-6` — instead of no signal. -/
theorem scenarioD_emits_signal_counterexample :
    BreakoutClose.buyTrigger cfgD barsD = true ∧
    BreakoutClose.last_swing_low cfgD.swing_lookback barsD = some 100 ∧
    max (100:ℚ) (100 - cfgD.atr_floor_mult * (1/14)) ≥ 100 ∧
    (BreakoutClose.on_bar cfgD BreakoutClose.State.init barsD).1
      = some ⟨Side.buy, 100, 100 - 1/1000000, 100 + 2/1000000⟩ := by
  refine ⟨buyTrigger_D, ?_, le_max_left _ _, ?_⟩
  · have hsw : cfgD.swing_lookback = 3 := rfl
    rw [hsw]
    exact last_swing_low_D
  · rw [on_bar_D]

/-- When enough history exists for the swing window, the swing low is
available. -/
theorem last_swing_low_isSome (lb : ℕ) (bars : List Bar)
    (h1 : 1 ≤ lb) (h2 : lb + 2 ≤ bars.length) :
    ∃ w, BreakoutClose.last_swing_low lb bars = some w := by
  unfold BreakoutClose.last_swing_low
  rw [if_neg (by omega)]
  cases hm : (bars.dropLast.drop (bars.length - 1 - lb)).map Bar.low with
  | nil =>
    exfalso
    have hml := congrArg List.length hm
    simp only [List.length_map, List.length_drop, List.length_dropLast,
      List.length_nil] at hml
    omega
  | cons x xs =>
    exact ⟨_, rfl⟩

/-- When enough history exists for the swing window, the swing high is
available. -/
theorem last_swing_high_isSome (lb : ℕ) (bars : List Bar)
    (h1 : 1 ≤ lb) (h2 : lb + 2 ≤ bars.length) :
    ∃ w, BreakoutClose.last_swing_high lb bars = some w := by
  unfold BreakoutClose.last_swing_high
  rw [if_neg (by omega)]
  cases hm : (bars.dropLast.drop (bars.length - 1 - lb)).map Bar.high with
  | nil =>
    exfalso
    have hml := congrArg List.length hm
    simp only [List.length_map, List.length_drop, List.length_dropLast,
      List.length_nil] at hml
    omega
  | cons x xs =>
    exact ⟨_, rfl⟩

/-- C1 (amended): `_compute_sl_tp` clamps the stop to lie strictly beyond
entry (`min(entry - 1e-6, candidate)` for a buy, `max(entry + 1e-6,
candidate)` for a sell), so whenever the swing window is available it
returns a stop/target pair with the stop strictly beyond entry — even
when the swing-based candidate is at or beyond entry — and in Scenario D
a buy signal with stop `entry - 1e-6` is emitted rather than no signal. -/
theorem stop_clamped_strictly_beyond_entry :
    (∀ (cfg : BreakoutClose.Config) (entry : ℚ) (bars : List Bar) (atrVal : ℚ),
      1 ≤ cfg.swing_lookback → cfg.swing_lookback + 2 ≤ bars.length →
      ∃ sl tp, BreakoutClose.compute_sl_tp cfg Side.buy entry bars atrVal
        = some (sl, tp) ∧ sl < entry) ∧
    (∀ (cfg : BreakoutClose.Config) (entry : ℚ) (bars : List Bar) (atrVal : ℚ),
      1 ≤ cfg.swing_lookback → cfg.swing_lookback + 2 ≤ bars.length →
      ∃ sl tp, BreakoutClose.compute_sl_tp cfg Side.sell entry bars atrVal
        = some (sl, tp) ∧ entry < sl) ∧
    (BreakoutClose.on_bar cfgD BreakoutClose.State.init barsD).1
      = some ⟨Side.buy, 100, 100 - 1/1000000, 100 + 2/1000000⟩ := by
  refine ⟨?_, ?_, by rw [on_bar_D]⟩
  · intro cfg entry bars atrVal h1 h2
    obtain ⟨w, hw⟩ := last_swing_low_isSome cfg.swing_lookback bars h1 h2
    unfold BreakoutClose.compute_sl_tp
    rw [hw]
    dsimp only
    have hlt : min (entry - 1/1000000) (max w (entry - cfg.atr_floor_mult * atrVal))
        < entry := lt_of_le_of_lt (min_le_left _ _) (by linarith)
    rw [if_neg (not_le.mpr hlt)]
    exact ⟨_, _, rfl, hlt⟩
  · intro cfg entry bars atrVal h1 h2
    obtain ⟨w, hw⟩ := last_swing_high_isSome cfg.swing_lookback bars h1 h2
    unfold BreakoutClose.compute_sl_tp
    rw [hw]
    dsimp only
    have hlt : entry
        < max (entry + 1/1000000) (min w (entry + cfg.atr_floor_mult * atrVal)) :=
      lt_of_lt_of_le (by linarith) (le_max_left _ _)
    rw [if_neg (not_le.mpr hlt)]
    exact ⟨_, _, rfl, hlt⟩

/-- Witness for C1 (amended) at the Scenario D inputs. -/
theorem stop_clamped_strictly_beyond_entry_witness :
    (1 ≤ cfgD.swing_lookback ∧ cfgD.swing_lookback + 2 ≤ barsD.length) ∧
    (∃ sl tp, BreakoutClose.compute_sl_tp cfgD Side.buy 100 barsD (1/14)
      = some (sl, tp) ∧ sl < 100) :=
  ⟨⟨by norm_num [cfgD], by norm_num [cfgD, barsD]⟩,
   stop_clamped_strictly_beyond_entry.1 cfgD 100 barsD (1/14)
     (by norm_num [cfgD]) (by norm_num [cfgD, barsD])⟩

/-- A retest candidate can only exist while the add budget is not yet
exhausted (`_adds_taken < max_adds`). -/
theorem maybe_retest_adds_lt (cfg : BreakoutClose.Config) (st : BreakoutClose.State)
    (bars : List Bar) (r : Side × ℚ)
    (h : BreakoutClose.maybe_retest cfg st bars = some r) :
    st.adds_taken < cfg.max_adds := by
  unfold BreakoutClose.maybe_retest at h
  split at h
  · exact absurd h (by simp)
  · split at h
    · split at h
      · exact absurd h (by simp)
      · omega
    · exact absurd h (by simp)

/-- Every `on_bar` evaluation either leaves the state unchanged with no
signal, records a fresh primary breakout (resetting `_adds_taken` to 0 and
stamping the current bar index), or — only when neither primary trigger
fired and the add budget remains — increments `_adds_taken` by one. -/
theorem on_bar_cases (cfg : BreakoutClose.Config) (st : BreakoutClose.State)
    (bars : List Bar) :
    ((BreakoutClose.on_bar cfg st bars).1 = none
      ∧ (BreakoutClose.on_bar cfg st bars).2 = st)
    ∨ ((BreakoutClose.on_bar cfg st bars).2.adds_taken = 0
      ∧ (BreakoutClose.on_bar cfg st bars).2.last_break_bar_index
          = some (bars.length - 1))
    ∨ ((BreakoutClose.on_bar cfg st bars).2
          = { st with adds_taken := st.adds_taken + 1 }
      ∧ st.adds_taken < cfg.max_adds
      ∧ BreakoutClose.buyTrigger cfg bars = false
      ∧ BreakoutClose.sellTrigger cfg bars = false) := by
  rcases hm : cfg.breakout_mode with _ | _
  all_goals
    unfold BreakoutClose.on_bar
    simp only [hm]
    split
    all_goals try exact Or.inl ⟨rfl, rfl⟩
    split
    all_goals try exact Or.inl ⟨rfl, rfl⟩
    split
    all_goals try exact Or.inl ⟨rfl, rfl⟩
    split
    all_goals try exact Or.inl ⟨rfl, rfl⟩
    split
    · split
      · exact Or.inl ⟨rfl, rfl⟩
      · exact Or.inr (Or.inl ⟨rfl, rfl⟩)
    · rename_i hbuy
      split
      · split
        · exact Or.inl ⟨rfl, rfl⟩
        · exact Or.inr (Or.inl ⟨rfl, rfl⟩)
      · rename_i hsell
        split
        · exact Or.inl ⟨rfl, rfl⟩
        · rename_i sideb price heq
          split
          · exact Or.inl ⟨rfl, rfl⟩
          · simp only [Bool.not_eq_true] at hbuy hsell
            exact Or.inr (Or.inr ⟨rfl,
              maybe_retest_adds_lt cfg st bars (sideb, price) heq, hbuy, hsell⟩)

/-- One `on_bar` evaluation preserves the add budget. -/
theorem on_bar_adds_le (cfg : BreakoutClose.Config) (st : BreakoutClose.State)
    (bars : List Bar) (h : st.adds_taken ≤ cfg.max_adds) :
    (BreakoutClose.on_bar cfg st bars).2.adds_taken ≤ cfg.max_adds := by
  rcases on_bar_cases cfg st bars with ⟨h1, h2⟩ | ⟨h1, h2⟩ | ⟨h1, h2, h3, h4⟩
  · rw [h2]
    exact h
  · rw [h1]
    exact Nat.zero_le _
  · rw [h1]
    simpa using Nat.succ_le_of_lt h2

/-- C6: a retest signal is never emitted on a bar where a primary breakout
trigger fired (when a trigger fires the evaluation either emits nothing
and keeps the state, or records the fresh primary breakout, which always
resets `_adds_taken` to 0); one evaluation preserves
`_adds_taken ≤ max_adds`; and over any sequence of evaluations from the
initial state `_adds_taken` never exceeds the configured `max_adds`. -/
theorem retest_primary_exclusion_and_adds_bound :
    (∀ (cfg : BreakoutClose.Config) (st : BreakoutClose.State) (bars : List Bar),
      (BreakoutClose.buyTrigger cfg bars = true
        ∨ BreakoutClose.sellTrigger cfg bars = true) →
      (((BreakoutClose.on_bar cfg st bars).1 = none
          ∧ (BreakoutClose.on_bar cfg st bars).2 = st)
        ∨ ((BreakoutClose.on_bar cfg st bars).2.adds_taken = 0
          ∧ (BreakoutClose.on_bar cfg st bars).2.last_break_bar_index
              = some (bars.length - 1)))) ∧
    (∀ (cfg : BreakoutClose.Config) (st : BreakoutClose.State) (bars : List Bar),
      st.adds_taken ≤ cfg.max_adds →
      (BreakoutClose.on_bar cfg st bars).2.adds_taken ≤ cfg.max_adds) ∧
    (∀ (cfg : BreakoutClose.Config) (dfs : List (List Bar)),
      (dfs.foldl (fun s df => (BreakoutClose.on_bar cfg s df).2)
        BreakoutClose.State.init).adds_taken ≤ cfg.max_adds) := by
  refine ⟨?_, on_bar_adds_le, ?_⟩
  · intro cfg st bars htrig
    rcases on_bar_cases cfg st bars with h | h | ⟨h1, h2, h3, h4⟩
    · exact Or.inl h
    · exact Or.inr h
    · rcases htrig with ht | ht
      · rw [h3] at ht
        exact Bool.noConfusion ht
      · rw [h4] at ht
        exact Bool.noConfusion ht
  · intro cfg dfs
    have hgen : ∀ (st : BreakoutClose.State), st.adds_taken ≤ cfg.max_adds →
        ((dfs.foldl (fun s df => (BreakoutClose.on_bar cfg s df).2) st).adds_taken
          ≤ cfg.max_adds) := by
      induction dfs with
      | nil => intro st h; exact h
      | cons d ds ih =>
        intro st h
        exact ih _ (on_bar_adds_le cfg st d h)
    exact hgen BreakoutClose.State.init (Nat.zero_le _)

/-- Witness for C6: on the Scenario D bar the buy trigger fires and the
evaluation resets the add counter; and the single-evaluation budget bound
holds at the concrete Scenario D input. -/
theorem retest_primary_exclusion_and_adds_bound_witness :
    (((BreakoutClose.on_bar cfgD BreakoutClose.State.init barsD).1 = none
        ∧ (BreakoutClose.on_bar cfgD BreakoutClose.State.init barsD).2
            = BreakoutClose.State.init)
      ∨ ((BreakoutClose.on_bar cfgD BreakoutClose.State.init barsD).2.adds_taken = 0
        ∧ (BreakoutClose.on_bar cfgD BreakoutClose.State.init barsD).2.last_break_bar_index
            = some (barsD.length - 1))) ∧
    (BreakoutClose.on_bar cfgD BreakoutClose.State.init barsD).2.adds_taken
      ≤ cfgD.max_adds :=
  ⟨retest_primary_exclusion_and_adds_bound.1 cfgD BreakoutClose.State.init barsD
      (Or.inl buyTrigger_D),
   retest_primary_exclusion_and_adds_bound.2.1 cfgD BreakoutClose.State.init barsD
      (Nat.zero_le _)⟩

/-- `_make_signal` always reports the side it was asked for. -/
theorem make_signal_side (P : DonchianBreakout.Params) (side : Side)
    (entry atrVal : ℚ) (sg : Sig)
    (h : DonchianBreakout.make_signal P side entry atrVal = some sg) :
    sg.side = side := by
  unfold DonchianBreakout.make_signal at h
  dsimp only at h
  cases side with
  | buy =>
    by_cases hc : (if P.atr_floor_mult ≠ 0 ∧ P.atr_floor_mult > 0
        then max atrVal (P.atr_floor_mult * entry / 10000) else atrVal) ≤ 0
    · rw [if_pos hc] at h
      exact absurd h (by simp)
    · rw [if_neg hc] at h
      injection h with h2
      rw [← h2]
  | sell =>
    by_cases hc : (if P.atr_floor_mult ≠ 0 ∧ P.atr_floor_mult > 0
        then max atrVal (P.atr_floor_mult * entry / 10000) else atrVal) ≤ 0
    · rw [if_pos hc] at h
      exact absurd h (by simp)
    · rw [if_neg hc] at h
      injection h with h2
      rw [← h2]

/-- C9: with the EMA filter enabled, a close strictly above the EMA can
only yield a buy signal, a close strictly below it only a sell signal,
and a close exactly equal to it yields no signal at all. -/
theorem ema_filter_gates_signal_side :
    ∀ (P : DonchianBreakout.Params) (bars : List Bar) (p : ℕ) (b : Bar) (e : ℚ),
      P.ema_filter = some p → p ≠ 0 →
      bars.getLast? = some b →
      DonchianBreakout.emaLast p (bars.map Bar.close) = some e →
      ((b.close = e → DonchianBreakout.on_bar P bars = none) ∧
       (b.close > e → ∀ sg, DonchianBreakout.on_bar P bars = some sg →
          sg.side = Side.buy) ∧
       (b.close < e → ∀ sg, DonchianBreakout.on_bar P bars = some sg →
          sg.side = Side.sell)) := by
  intro P bars p b e hfil hp hlast hema
  have htf : DonchianBreakout.passes_trend_filter P bars
      = (if b.close > e then (true, some DonchianBreakout.Bias.long)
         else if b.close < e then (true, some DonchianBreakout.Bias.short)
         else (false, none)) := by
    unfold DonchianBreakout.passes_trend_filter
    rw [hfil]
    dsimp only
    rw [if_neg hp, hema, hlast]
  refine ⟨?_, ?_, ?_⟩
  · intro heq
    have htf2 : DonchianBreakout.passes_trend_filter P bars = (false, none) := by
      rw [htf, if_neg (by rw [heq]; exact lt_irrefl e),
        if_neg (by rw [heq]; exact lt_irrefl e)]
    unfold DonchianBreakout.on_bar
    split
    · rfl
    · rw [htf2]
      rfl
  · intro hgt sg hsg
    have htf2 : DonchianBreakout.passes_trend_filter P bars
        = (true, some DonchianBreakout.Bias.long) := by
      rw [htf, if_pos hgt]
    unfold DonchianBreakout.on_bar at hsg
    split at hsg
    · exact absurd hsg (by simp)
    · rw [htf2] at hsg
      dsimp only at hsg
      rw [if_neg (by simp)] at hsg
      split at hsg
      · split at hsg
        · exact absurd hsg (by simp)
        · split at hsg
          · exact make_signal_side P Side.buy _ _ sg hsg
          · split at hsg
            · rename_i hc
              rcases hc with ⟨hc1 | hc1, _⟩ <;> exact absurd hc1 (by simp)
            · exact absurd hsg (by simp)
      · exact absurd hsg (by simp)
  · intro hlt sg hsg
    have htf2 : DonchianBreakout.passes_trend_filter P bars
        = (true, some DonchianBreakout.Bias.short) := by
      rw [htf, if_neg (by exact not_lt.mpr hlt.le), if_pos hlt]
    unfold DonchianBreakout.on_bar at hsg
    split at hsg
    · exact absurd hsg (by simp)
    · rw [htf2] at hsg
      dsimp only at hsg
      rw [if_neg (by simp)] at hsg
      split at hsg
      · split at hsg
        · exact absurd hsg (by simp)
        · split at hsg
          · rename_i hc
            rcases hc with ⟨hc1 | hc1, _⟩ <;> exact absurd hc1 (by simp)
          · split at hsg
            · exact make_signal_side P Side.sell _ _ sg hsg
            · exact absurd hsg (by simp)
      · exact absurd hsg (by simp)

/-- Witness for C9: flat bars whose close equals their EMA produce no
signal. -/
theorem ema_filter_gates_signal_side_witness :
    DonchianBreakout.on_bar pW barsW = none :=
  (ema_filter_gates_signal_side pW barsW 2 ⟨1, 1, 1⟩ 1 rfl (by norm_num)
    (by norm_num [barsW, List.getLast?])
    (by norm_num [DonchianBreakout.emaLast, barsW, List.foldl])).1 rfl
